import Mathlib

/-!
Verification of the FastMart profit/cost aggregation engine and daily rollup
materializer, as a shallow embedding of the Python services

  * app/services/analytics/profit_calculator.py
  * app/services/analytics/daily_sales_service.py
  * app/api/graphql/analytics/resolvers.py       (discount code analytics)
  * app/api/graphql/analytics/net_profit_resolvers.py (customer LTV)

Modelling conventions:
  * Python `Decimal` values are embedded as `ℚ` (decimal +, -, ×, and the
    exactly-representable literals used by the code are exact in `ℚ`;
    `Decimal` division is modelled as exact rational division).
  * Timestamps are microsecond counts (`Nat`); a calendar date is a day
    index (`Nat`); `datetime.combine(d, min.time())` is `dayStart d`,
    `datetime.combine(d, max.time())` is `dayEnd d` (23:59:59.999999),
    and `.date()` on a timestamp is `toDate`.
  * SQL rows are Lean structures; a nullable column is an `Option`.
    A SQL comparison against NULL is false, so an order whose
    `processed_at` is NULL never falls in a date range.
  * A value stored in a JSON discount field is embedded by the behaviour of
    `Decimal(str(v))` on it: `NumField.numeric q` when the coercion
    succeeds with value `q`, `NumField.malformed` when it raises
    `decimal.InvalidOperation` (the only exception `Decimal` raises on an
    unparseable string).  JSON string fields (`type`, `code`, `title`,
    `value_type`) are embedded as `Option String` (absent key ↦ `none`).
  * Python exceptions are the error side of `Except PyExc`.
-/

deriving instance DecidableEq for Except

attribute [local semireducible] Rat.add Rat.sub Rat.mul Rat.inv

/-- Python exceptions raised by the embedded code paths:
`decimal.InvalidOperation` from `Decimal(str(v))` on a malformed value,
`MultipleResultsFound` from `scalar_one_or_none()` on a duplicated key, and
`AttributeError` from calling `.date()` on a `None` timestamp. -/
inductive PyExc where
  | invalidOperation
  | multipleResultsFound
  | attributeError
deriving DecidableEq, Repr

/-- A Python value sitting in a numeric discount field, abstracted by what
`Decimal(str(v))` does with it: parses to a rational, or raises
`decimal.InvalidOperation`. -/
inductive NumField where
  | numeric (q : ℚ)
  | malformed
deriving DecidableEq, Repr

/-- `Decimal(str(v))`: `some q` on success, `none` when the coercion raises
`decimal.InvalidOperation`. -/
def parseDecimal : NumField → Option ℚ
  | .numeric q => some q
  | .malformed => none

/-- One entry of an order's `discount_applications` JSON list.  A field is
`none` when the key is absent from the dict.  `dtype` embeds the `type` key. -/
structure DiscountEntry where
  amount : Option NumField
  value : Option NumField
  percentage : Option NumField
  value_type : Option String
  dtype : Option String
  code : Option String
  title : Option String
deriving DecidableEq, Repr

/-- The JSONB `discount_applications` column value: a list of entries, or a
JSON value that is not a list (the services test `isinstance(…, list)`). -/
inductive DiscountApps where
  | jlist (entries : List DiscountEntry)
  | nonList
deriving DecidableEq, Repr

/-- Row of the `orders` table (the columns the analytics code reads). -/
structure Order where
  id : Nat
  store_id : Nat
  customer_id : Option Nat
  total_price : ℚ
  processed_at : Option Nat
  platform_created_at : Nat
  cancelled_at : Option Nat
  discount_applications : Option DiscountApps
  actual_shipping_cost : Option ℚ
deriving DecidableEq, Repr

/-- Row of the `line_items` table (columns used by the COGS query). -/
structure LineItem where
  order_id : Nat
  product_id : Option Nat
  platform_variant_id : Option String
  quantity : Nat
deriving DecidableEq, Repr

/-- Row of the `product_variants` table (columns used by the COGS query). -/
structure ProductVariant where
  product_id : Nat
  platform_variant_id : String
  cost_of_goods_sold : Option ℚ
deriving DecidableEq, Repr

/-- Row of the `ad_spends` table. -/
structure AdSpend where
  store_id : Nat
  date : Nat
  spend : ℚ
deriving DecidableEq, Repr

/-- Row of the `other_costs` table. -/
structure OtherCost where
  store_id : Nat
  frequency : String
  amount : ℚ
  start_date : Nat
  end_date : Option Nat
deriving DecidableEq, Repr

/-- Row of the `transaction_fee_rules` table.  The model imports the entity
but `_calculate_transaction_fees` never queries it; it is carried in the
database state so that independence from it can be stated. -/
structure TransactionFeeRule where
  store_id : Nat
  percentage_fee : ℚ
  fixed_fee : ℚ
deriving DecidableEq, Repr

/-- Row of the `daily_sales_analytics` table. -/
structure DailySalesAnalytics where
  store_id : Nat
  date : Nat
  total_sales : ℚ
  total_orders : Nat
  average_order_value : ℚ
  profit : ℚ
deriving DecidableEq, Repr

/-- The database state read (and, for `analytics`, written) by the engine. -/
structure DB where
  orders : List Order
  lineItems : List LineItem
  variants : List ProductVariant
  adSpends : List AdSpend
  otherCosts : List OtherCost
  feeRules : List TransactionFeeRule
  analytics : List DailySalesAnalytics
deriving DecidableEq, Repr

/-- Microseconds per calendar day. -/
def usPerDay : Nat := 86400000000

/-- `datetime.combine(target_date, datetime.min.time())`. -/
def dayStart (d : Nat) : Nat := d * usPerDay

/-- `datetime.combine(target_date, datetime.max.time())`, i.e. 23:59:59.999999. -/
def dayEnd (d : Nat) : Nat := d * usPerDay + (usPerDay - 1)

/-- `.date()` on a timestamp. -/
def toDate (t : Nat) : Nat := t / usPerDay

/-- `Order.processed_at >= start AND Order.processed_at <= end`; a NULL
`processed_at` compares as unknown and the row is excluded. -/
def processedInRange (s e : Nat) (o : Order) : Bool :=
  match o.processed_at with
  | some t => decide (s ≤ t) && decide (t ≤ e)
  | none => false

/-- The store's orders with `processed_at` in `[s, e]` (the WHERE clause
shared by every revenue/fee/shipping query of `ProfitCalculator`). -/
def ordersInRange (db : DB) (store s e : Nat) : List Order :=
  db.orders.filter (fun o => o.store_id == store && processedInRange s e o)

/-- `SELECT sum(Order.total_price) …` over the in-range orders, with the
NULL sum of an empty set coalesced to `0` (`data.gross_revenue or Decimal('0')`). -/
def grossRevenueInRange (db : DB) (store s e : Nat) : ℚ :=
  ((ordersInRange db store s e).map (fun o => o.total_price)).sum

/-- The shared try-block body of the two per-entry discount-amount parsers:
`amount` → `value` → `percentage` (as a fraction of `tp = order.total_price`)
→ `value_type == 'percentage'` with `value`; `none` when `Decimal(str(…))`
raises `decimal.InvalidOperation`.  (The fourth branch requires `value` to be
present, which the second branch already consumed, so it is dead code;
it is kept to mirror the source.) -/
def discountAmountTry (tp : ℚ) (d : DiscountEntry) : Option ℚ :=
  match d.amount with
  | some v => parseDecimal v
  | none =>
    match d.value with
    | some v => parseDecimal v
    | none =>
      match d.percentage with
      | some v => (parseDecimal v).map (fun p => tp * (p / 100))
      | none =>
        if d.value_type == some "percentage" && d.value.isSome then
          match d.value with
          | some v => (parseDecimal v).map (fun p => tp * (p / 100))
          | none => some 0
        else some 0

/-- Per-entry discount amount in `ProfitCalculator._calculate_total_discounts`:
the `except (ValueError, TypeError)` clause does not cover
`decimal.InvalidOperation`, so a malformed field propagates the exception. -/
def discountAmountPC (tp : ℚ) (d : DiscountEntry) : Except PyExc ℚ :=
  match discountAmountTry tp d with
  | some q => .ok q
  | none => .error .invalidOperation

/-- Per-entry discount amount in `resolve_discount_code_analytics`: the
`except (ValueError, TypeError, InvalidOperation)` clause catches the parse
failure and keeps `discount_amount = Decimal('0')`. -/
def discountAmountDCA (tp : ℚ) (d : DiscountEntry) : ℚ :=
  (discountAmountTry tp d).getD 0

/-- `ProfitCalculator._calculate_total_discounts`: fetch the in-range orders
whose `discount_applications` is not NULL, skip non-list or falsy values, and
accumulate the per-entry amounts; the first uncaught parse exception aborts
the whole calculation. -/
def calcTotalDiscounts (db : DB) (store s e : Nat) : Except PyExc ℚ :=
  let os := db.orders.filter (fun o =>
    o.store_id == store && processedInRange s e o && o.discount_applications.isSome)
  os.foldlM (fun acc o =>
    match o.discount_applications with
    | some (.jlist ds) =>
        ds.foldlM (fun a d => (discountAmountPC o.total_price d).map (fun x => a + x)) acc
    | _ => .ok acc) 0

/-- Multiplicity of the `LineItem ⋈ Order` inner join for one line item:
how many in-range orders of the store carry its `order_id`. -/
def orderJoinCount (db : DB) (store s e : Nat) (li : LineItem) : Nat :=
  db.orders.countP (fun o => o.id == li.order_id && o.store_id == store && processedInRange s e o)

/-- Variant rows matched by the outer join
`platform_variant_id = … AND product_id = …`; a NULL on either line-item
column matches nothing. -/
def variantMatches (db : DB) (li : LineItem) : List ProductVariant :=
  match li.platform_variant_id, li.product_id with
  | some pv, some pid =>
      db.variants.filter (fun v => v.platform_variant_id == pv && v.product_id == pid)
  | _, _ => []

/-- `quantity * coalesce(cost_of_goods_sold, 0)` summed over the matched
variant rows; an outer-join miss contributes `quantity * 0 = 0`, which the
empty sum also yields. -/
def liCogs (db : DB) (li : LineItem) : ℚ :=
  ((variantMatches db li).map (fun v => (li.quantity : ℚ) * v.cost_of_goods_sold.getD 0)).sum

/-- `ProfitCalculator._calculate_total_cogs` (join multiplicities made
explicit), NULL total coalesced to 0. -/
def calcTotalCogs (db : DB) (store s e : Nat) : ℚ :=
  ((db.lineItems.map (fun li => (orderJoinCount db store s e li : ℚ) * liCogs db li)).sum)

/-- `ProfitCalculator._calculate_shipping_costs`:
`sum(coalesce(actual_shipping_cost, 0))` over in-range orders. -/
def calcShippingCosts (db : DB) (store s e : Nat) : ℚ :=
  ((ordersInRange db store s e).map (fun o => o.actual_shipping_cost.getD 0)).sum

/-- `ProfitCalculator._calculate_transaction_fees`: flat placeholder
`total_revenue * 0.029 + 0.30 * order_count` over in-range orders; the fee
rule table is never consulted. -/
def calcTransactionFees (db : DB) (store s e : Nat) : ℚ :=
  let total_revenue := ((ordersInRange db store s e).map (fun o => o.total_price)).sum
  let order_count := (ordersInRange db store s e).length
  total_revenue * (29 / 1000) + (3 / 10) * (order_count : ℚ)

/-- `ProfitCalculator._calculate_ad_spend`: `sum(spend)` over the store's
`AdSpend` rows with `date` in `[start.date(), end.date()]`. -/
def calcAdSpend (db : DB) (store s e : Nat) : ℚ :=
  ((db.adSpends.filter (fun a =>
    a.store_id == store && decide (toDate s ≤ a.date) && decide (a.date ≤ toDate e))).map
      (fun a => a.spend)).sum

/-- `ProfitCalculator._calculate_other_costs`: one-time costs whose
`start_date` lies in the range, plus recurring costs whose active interval
overlaps it. -/
def calcOtherCosts (db : DB) (store s e : Nat) : ℚ :=
  let one_time := ((db.otherCosts.filter (fun c =>
    c.store_id == store && c.frequency == "one_time" &&
      decide (toDate s ≤ c.start_date) && decide (c.start_date ≤ toDate e))).map
        (fun c => c.amount)).sum
  let recurring := ((db.otherCosts.filter (fun c =>
    c.store_id == store && c.frequency != "one_time" &&
      decide (c.start_date ≤ toDate e) &&
      (match c.end_date with | some ed => decide (toDate s ≤ ed) | none => true))).map
        (fun c => c.amount)).sum
  one_time + recurring

/-- The dictionary returned by `ProfitCalculator.calculate_net_profit`. -/
structure ProfitMetrics where
  gross_revenue : ℚ
  net_revenue : ℚ
  gross_profit : ℚ
  net_profit : ℚ
  total_cogs : ℚ
  total_shipping_cost : ℚ
  total_transaction_fees : ℚ
  total_ad_spend : ℚ
  total_other_costs : ℚ
  total_refunds : ℚ
  total_discounts : ℚ
deriving DecidableEq, Repr

/-- `ProfitCalculator.calculate_net_profit`.  The discount totaling pass is
the only fallible step; every other reader is a pure aggregate. -/
def calculate_net_profit (db : DB) (store s e : Nat) : Except PyExc ProfitMetrics :=
  let gross_revenue := grossRevenueInRange db store s e
  let total_refunds : ℚ := 0
  (calcTotalDiscounts db store s e).map (fun total_discounts =>
    let net_revenue := gross_revenue - total_refunds - total_discounts
    let total_cogs := calcTotalCogs db store s e
    let gross_profit := net_revenue - total_cogs
    let total_shipping_cost := calcShippingCosts db store s e
    let total_transaction_fees := calcTransactionFees db store s e
    let total_ad_spend := calcAdSpend db store s e
    let total_other_costs := calcOtherCosts db store s e
    let net_profit := gross_profit - total_shipping_cost - total_transaction_fees
      - total_ad_spend - total_other_costs
    ⟨gross_revenue, net_revenue, gross_profit, net_profit, total_cogs,
      total_shipping_cost, total_transaction_fees, total_ad_spend,
      total_other_costs, total_refunds, total_discounts⟩)

/-- Key of the `daily_sales_analytics` upsert lookup: `(store_id, date)`. -/
def keyMatch (store d : Nat) (r : DailySalesAnalytics) : Bool :=
  r.store_id == store && r.date == d

/-- The day metrics query of `process_daily_analytics`: the store's orders
whose `platform_created_at` falls inside the target day and whose
`cancelled_at` is NULL. -/
def dayOrders (db : DB) (store target : Nat) : List Order :=
  db.orders.filter (fun o =>
    o.store_id == store && decide (dayStart target ≤ o.platform_created_at) &&
      decide (o.platform_created_at ≤ dayEnd target) && o.cancelled_at.isNone)

/-- Overwrite of the four metric columns on one analytics row (the update
branch body of `process_daily_analytics`). -/
def updMetrics (ts : ℚ) (tc : Nat) (aov p : ℚ) (r : DailySalesAnalytics) :
    DailySalesAnalytics :=
  { r with total_sales := ts, total_orders := tc, average_order_value := aov, profit := p }

/-- `DailySalesAnalyticsService.process_daily_analytics`: look up the
`(store, date)` row with `scalar_one_or_none` (raising on a duplicated key),
compute `total_sales`/`total_orders`/`average_order_value` from the day's
non-cancelled orders, take `profit` from `calculate_net_profit` over the
day's datetime span, then update the existing row in place or insert a new
one and commit. -/
def process_daily_analytics (db : DB) (store target : Nat) : Except PyExc DB := do
  let sdt := dayStart target
  let edt := dayEnd target
  let existing ← match db.analytics.filter (keyMatch store target) with
    | [] => Except.ok Option.none
    | [r] => Except.ok (Option.some r)
    | _ => Except.error .multipleResultsFound
  let orders := dayOrders db store target
  let total_sales := (orders.map (fun o => o.total_price)).sum
  let total_orders := orders.length
  let average_order_value : ℚ :=
    if total_orders > 0 then total_sales / (total_orders : ℚ) else 0
  let profit_data ← calculate_net_profit db store sdt edt
  let profit := profit_data.net_profit
  match existing with
  | some _ =>
      Except.ok { db with analytics := db.analytics.map (fun r =>
        if keyMatch store target r then
          updMetrics total_sales total_orders average_order_value profit r
        else r) }
  | none =>
      Except.ok { db with analytics := db.analytics ++
        [⟨store, target, total_sales, total_orders, average_order_value, profit⟩] }

/-- First-occurrence deduplication: the iteration order of the keys of a
Python dict built by grouping a list. -/
def firstOccur : List Nat → List Nat :=
  List.foldl (fun acc d => if acc.contains d then acc else acc ++ [d]) []

/-- The distinct `platform_created_at.date()` values of the store's
non-cancelled orders, in first-appearance order (the keys of
`orders_by_date`). -/
def distinctOrderDates (db : DB) (store : Nat) : List Nat :=
  firstOccur ((db.orders.filter (fun o =>
    o.store_id == store && o.cancelled_at.isNone)).map
      (fun o => toDate o.platform_created_at))

/-- `DailySalesAnalyticsService.process_all_store_analytics`: group the
store's non-cancelled orders by creation date and run
`process_daily_analytics` once per grouped date, each run on the state the
previous runs committed; an exception raised by one day's run propagates
out of the loop. -/
def process_all_store_analytics (db : DB) (store : Nat) : Except PyExc DB :=
  (distinctOrderDates db store).foldlM
    (fun cur d => process_daily_analytics cur store d) db

/-- The `CustomerLtvMetrics` GraphQL payload. -/
structure CustomerLtvMetrics where
  customer_id : Nat
  total_orders : Nat
  total_revenue : ℚ
  total_profit : ℚ
  net_profit_ltv : ℚ
  average_order_value : ℚ
  average_profit_per_order : ℚ
  first_order_date : Option Nat
  last_order_date : Option Nat
deriving DecidableEq, Repr

/-- `ORDER BY processed_at` ascending comparison, NULLs last (Postgres
default for ascending order). -/
def processedLe (a b : Order) : Bool :=
  match a.processed_at, b.processed_at with
  | some x, some y => decide (x ≤ y)
  | some _, none => true
  | none, some _ => false
  | none, none => true

/-- Stable insertion of `a` after every element that sorts no later than it. -/
def insertSorted (le : α → α → Bool) (a : α) : List α → List α
  | [] => [a]
  | b :: bs => if le b a then b :: insertSorted le a bs else a :: b :: bs

/-- Stable sort by repeated insertion (the model of a stable SQL/Python sort). -/
def sortByStable (le : α → α → Bool) (l : List α) : List α :=
  l.foldl (fun acc a => insertSorted le a acc) []

/-- The customer's orders in the store, sorted by `processed_at` ascending. -/
def customerOrders (db : DB) (customer store : Nat) : List Order :=
  sortByStable processedLe (db.orders.filter (fun o =>
    o.store_id == store && o.customer_id == some customer))

/-- The all-zero / None-dates LTV payload returned when the customer has no
orders. -/
def emptyLtv (customer : Nat) : CustomerLtvMetrics :=
  ⟨customer, 0, 0, 0, 0, 0, 0, none, none⟩

/-- One loop step of the LTV profit accumulation: invoke
`calculate_net_profit` with `start = end = order.processed_at` and take its
`net_profit`.  A NULL `processed_at` reaches the ad-spend reader's
`start_date.date()` call and raises `AttributeError`. -/
def perOrderNet (db : DB) (store : Nat) (o : Order) : Except PyExc ℚ := do
  let t ← match o.processed_at with
    | some t => Except.ok t
    | none => Except.error PyExc.attributeError
  let pm ← calculate_net_profit db store t t
  Except.ok pm.net_profit

/-- `.date()` on an order's `processed_at`, raising `AttributeError` on NULL
(`orders[0].processed_at.date()`). -/
def processedDate (o : Order) : Except PyExc Nat :=
  match o.processed_at with
  | some t => Except.ok (toDate t)
  | none => Except.error PyExc.attributeError

/-- `resolve_customer_ltv`: fetch the customer's orders sorted by
`processed_at`; with no orders return the explicit zero payload; otherwise
sum `total_price`, invoke the profit aggregator once per order at
`start = end = processed_at`, divide the totals by the order count, and take
the first/last dates from the sorted extremes. -/
def resolve_customer_ltv (db : DB) (customer store : Nat) :
    Except PyExc CustomerLtvMetrics :=
  let orders := customerOrders db customer store
  match orders with
  | [] => Except.ok (emptyLtv customer)
  | o :: os => do
      let all := o :: os
      let total_orders := all.length
      let total_revenue := (all.map (fun x => x.total_price)).sum
      let total_profit ← all.foldlM
        (fun acc x => (perOrderNet db store x).map (fun p => acc + p)) (0 : ℚ)
      let average_order_value : ℚ :=
        if total_orders > 0 then total_revenue / (total_orders : ℚ) else 0
      let average_profit_per_order : ℚ :=
        if total_orders > 0 then total_profit / (total_orders : ℚ) else 0
      let first_order_date ← processedDate o
      let last_order_date ← processedDate (all.getLast (List.cons_ne_nil o os))
      Except.ok ⟨customer, total_orders, total_revenue, total_profit, total_profit,
        average_order_value, average_profit_per_order,
        some first_order_date, some last_order_date⟩

/-- One aggregate of the discount code analytics payload. -/
structure DiscountCodeAnalytics where
  code : String
  usage_count : Nat
  total_discount_amount : ℚ
  total_sales_generated : ℚ
deriving DecidableEq, Repr

/-- The code-determination chain of `resolve_discount_code_analytics`: keep a
non-empty `code` field; otherwise synthesize `"MANUAL: <title>"` /
`"AUTO: <title>"` when the matching `type` and a `title` key are present,
`"<TYPE>: <title>"` (with `"DISCOUNT"` for a falsy type) when the title is
truthy, and drop the entry (`continue`) otherwise. -/
def codeOfEntry (d : DiscountEntry) : Option String :=
  let synth : Option String :=
    if d.dtype == some "manual" && d.title.isSome then
      some ("MANUAL: " ++ d.title.getD "")
    else if d.dtype == some "automatic" && d.title.isSome then
      some ("AUTO: " ++ d.title.getD "")
    else if (match d.title with | some t => t != "" | none => false) then
      some ((match d.dtype with
        | some ty => if ty != "" then ty.toUpper else "DISCOUNT"
        | none => "DISCOUNT") ++ ": " ++ d.title.getD "")
    else none
  match d.code with
  | some c => if c != "" then some c else synth
  | none => synth

/-- In-progress per-code stats held in `discount_code_map`. -/
structure CodeStats where
  usage_count : Nat
  total_discount_amount : ℚ
  total_sales_generated : ℚ
deriving DecidableEq, Repr

/-- The map-update step: create the zero entry when the code is new
(insertion order preserved, as for a Python dict), then increment the three
stats in place. -/
def updateCodeMap (m : List (String × CodeStats)) (c : String) (amt sales : ℚ) :
    List (String × CodeStats) :=
  let m1 := if m.any (fun p => p.1 == c) then m else m ++ [(c, ⟨0, 0, 0⟩)]
  m1.map (fun p => if p.1 == c then
    (p.1, ⟨p.2.usage_count + 1, p.2.total_discount_amount + amt,
      p.2.total_sales_generated + sales⟩) else p)

/-- Descending-by-`usage_count` comparison for the final stable sort
(`sort(key=…, reverse=True)`). -/
def usageGe (a b : DiscountCodeAnalytics) : Bool :=
  decide (b.usage_count ≤ a.usage_count)

/-- `resolve_discount_code_analytics`: iterate the store's orders with
`processed_at` in the day span `[startD, endD]`, skip a missing, non-list or
empty `discount_applications` value, fold every entry into the per-code map
(code determination, then amount parsing with the catch-all clause), convert
the map to payloads in insertion order, stable-sort by `usage_count`
descending and truncate to `limit` results. -/
def resolve_discount_code_analytics (db : DB) (store startD endD limit : Nat) :
    List DiscountCodeAnalytics :=
  let s := dayStart startD
  let e := dayEnd endD
  let orders := db.orders.filter (fun o => o.store_id == store && processedInRange s e o)
  let m := orders.foldl (fun m o =>
    match o.discount_applications with
    | some (.jlist ds) =>
        ds.foldl (fun m d =>
          match codeOfEntry d with
          | some c => updateCodeMap m c (discountAmountDCA o.total_price d) o.total_price
          | none => m) m
    | _ => m) []
  let payload := m.map (fun p =>
    DiscountCodeAnalytics.mk p.1 p.2.usage_count p.2.total_discount_amount
      p.2.total_sales_generated)
  (sortByStable usageGe payload).take limit

/-- First-occurrence deduplication of strings (key order of a grouping). -/
def firstOccurStr : List String → List String :=
  List.foldl (fun acc c => if acc.contains c then acc else acc ++ [c]) []

/-- Spec-side code determination (section 4.2, step 1), exactly as worded:
use the `code` field if non-empty; else synthesize `"MANUAL: <title>"` for
type manual, `"AUTO: <title>"` for type automatic, `"<TYPE>: <title>"`
otherwise (`<TYPE>` read as the uppercased type, or `"DISCOUNT"` when the
type is absent or empty); drop entries with neither a code nor a title. -/
def specCodeOfEntry (d : DiscountEntry) : Option String :=
  match d.code with
  | some c =>
      if c != "" then some c
      else match d.title with
        | some t => some (specSynth d.dtype t)
        | none => none
  | none => match d.title with
    | some t => some (specSynth d.dtype t)
    | none => none
where
  specSynth (ty : Option String) (t : String) : String :=
    if ty == some "manual" then "MANUAL: " ++ t
    else if ty == some "automatic" then "AUTO: " ++ t
    else (match ty with
      | some s => if s != "" then s.toUpper else "DISCOUNT"
      | none => "DISCOUNT") ++ ": " ++ t

/-- Spec-side amended code determination: as `specCodeOfEntry`, except that
the generic `"<TYPE>: <title>"` branch additionally requires a non-empty
title, so an entry whose only identifying field is an empty title is
dropped, while the manual/automatic branches accept an empty title. -/
def specCodeOfEntryAmended (d : DiscountEntry) : Option String :=
  match d.code with
  | some c => if c != "" then some c else specSynthA d.dtype d.title
  | none => specSynthA d.dtype d.title
where
  specSynthA (ty : Option String) (title : Option String) : Option String :=
    match title with
    | none => none
    | some t =>
        if ty == some "manual" then some ("MANUAL: " ++ t)
        else if ty == some "automatic" then some ("AUTO: " ++ t)
        else if t != "" then
          some ((match ty with
            | some s => if s != "" then s.toUpper else "DISCOUNT"
            | none => "DISCOUNT") ++ ": " ++ t)
        else none

/-- The flattened `(code, amount, order total)` records of the in-range
orders' discount entries, for a given code-determination rule: the Discount
Extractor's per-entry extraction (spec section 4.2, steps 1 and 2; the spec's
contract note mandates the same amount parsing as the attribution pass). -/
def specEntryRecords (codeOf : DiscountEntry → Option String)
    (db : DB) (store s e : Nat) : List (String × ℚ × ℚ) :=
  ((db.orders.filter (fun o => o.store_id == store && processedInRange s e o)).map
    (fun o =>
      match o.discount_applications with
      | some (.jlist ds) =>
          ds.filterMap (fun d =>
            (codeOf d).map (fun c => (c, discountAmountDCA o.total_price d, o.total_price)))
      | _ => [])).flatten

/-- Spec-side Discount Extractor (section 4.2), parametrised by the
code-determination rule: per code, count the records, sum the amounts, sum
the full order totals; output in first-appearance order, stable-sorted by
`usage_count` descending, truncated to the caller's limit. -/
def specDiscountCodeAnalytics (codeOf : DiscountEntry → Option String)
    (db : DB) (store startD endD limit : Nat) : List DiscountCodeAnalytics :=
  let recs := specEntryRecords codeOf db store (dayStart startD) (dayEnd endD)
  let aggs := (firstOccurStr (recs.map (fun r => r.1))).map (fun c =>
    let mine := recs.filter (fun r => r.1 == c)
    DiscountCodeAnalytics.mk c mine.length
      ((mine.map (fun r => r.2.1)).sum) ((mine.map (fun r => r.2.2)).sum))
  (sortByStable usageGe aggs).take limit

/-! ### Concrete fixtures and derived abbreviations -/

/-- Database with the analytics table replaced (what a materializer commit
leaves behind). -/
def setAnalytics (db : DB) (X : List DailySalesAnalytics) : DB :=
  { db with analytics := X }

/-- `total_sales` of the materializer run on `db` for `(store, target)`. -/
def pdSales (db : DB) (store target : Nat) : ℚ :=
  ((dayOrders db store target).map (fun o => o.total_price)).sum

/-- `total_orders` of the materializer run on `db` for `(store, target)`. -/
def pdCount (db : DB) (store target : Nat) : Nat :=
  (dayOrders db store target).length

/-- `average_order_value` of the materializer run on `db` for `(store, target)`. -/
def pdAov (db : DB) (store target : Nat) : ℚ :=
  if 0 < pdCount db store target then pdSales db store target / (pdCount db store target : ℚ)
  else 0

/-- The row-update function of the materializer's update branch. -/
def pdUpd (db : DB) (store target : Nat) (p : ℚ) (r : DailySalesAnalytics) :
    DailySalesAnalytics :=
  if keyMatch store target r then
    updMetrics (pdSales db store target) (pdCount db store target) (pdAov db store target) p r
  else r

/-- A store with a single plain 100.00 order and no cost data. -/
def dbW1 : DB := ⟨[⟨1, 1, some 5, 100, some 10, 10, none, none, none⟩], [], [], [], [], [], []⟩

/-- The metrics `calculate_net_profit` returns on `dbW1` over `[0, 99]`. -/
def mW1 : ProfitMetrics := ⟨100, 100, 100, 484/5, 0, 0, 16/5, 0, 0, 0, 0⟩

/-- A discount entry whose `amount` value does not parse as a decimal
(for instance the string `"abc"`). -/
def entryBadAmount : DiscountEntry := ⟨some .malformed, none, none, none, none, none, none⟩

/-- A store with one in-range 100.00 order carrying `entryBadAmount`. -/
def dbBadDiscount : DB :=
  ⟨[⟨1, 1, none, 100, some 10, 10, none, some (.jlist [entryBadAmount]), none⟩],
    [], [], [], [], [], []⟩


/-- A 100.00 order of store 1 created and processed inside day 0, with
`cancelled_at` set. -/
def orderCancelled : Order := ⟨1, 1, none, 100, some 10, 10, some 50, none, none⟩

/-- A store whose only order is cancelled. -/
def dbCancelled : DB := ⟨[orderCancelled], [], [], [], [], [], []⟩

/-- The same store with no orders at all. -/
def dbNoOrders : DB := ⟨[], [], [], [], [], [], []⟩

/-- Rewrite of a single order's `cancelled_at` column. -/
def setCancelled (g : Order → Option Nat) (o : Order) : Order :=
  { o with cancelled_at := g o }

/-- Database with every order's `cancelled_at` rewritten by `g` (used to
state that a computation never consults the cancellation column). -/
def mapCancelled (g : Order → Option Nat) (db : DB) : DB :=
  { db with orders := db.orders.map (setCancelled g) }

/-- Day-0 order of store 1 carrying a malformed discount amount. -/
def orderDay0Bad : Order := ⟨1, 1, none, 100, some 10, 10, none, some (.jlist [entryBadAmount]), none⟩

/-- The same day-0 order without the malformed discount. -/
def orderDay0Good : Order := ⟨1, 1, none, 100, some 10, 10, none, none, none⟩

/-- A 50.00 order of store 1 created and processed on day 1. -/
def orderDay1 : Order := ⟨2, 1, none, 50, some (usPerDay + 5), usPerDay + 5, none, none, none⟩

/-- Two order days where materializing day 0 raises a parse exception. -/
def dbRangeBad : DB := ⟨[orderDay0Bad, orderDay1], [], [], [], [], [], []⟩

/-- The same two order days with the malformed discount removed. -/
def dbRangeGood : DB := ⟨[orderDay0Good, orderDay1], [], [], [], [], [], []⟩

/-- Two orders of customer 5 in store 1, processed on days 0 and 1. -/
def orderLtv1 : Order := ⟨1, 1, some 5, 100, some 10, 10, none, none, none⟩

/-- Second LTV order, on day 1. -/
def orderLtv2 : Order := ⟨2, 1, some 5, 50, some (usPerDay + 20), usPerDay + 20, none, none, none⟩

/-- Store 1 holding the two LTV orders (listed out of date order). -/
def dbLtv : DB := ⟨[orderLtv2, orderLtv1], [], [], [], [], [], []⟩

/-- The payload `resolve_customer_ltv` returns on `dbLtv`. -/
def mLtv : CustomerLtvMetrics :=
  ⟨5, 2, 150, 2901/20, 2901/20, 75, 2901/40, some 0, some 1⟩

/-- One extracted `(code, amount, order total)` record of a discount entry,
`none` when the code rule drops the entry. -/
def entryRecord (codeOf : DiscountEntry → Option String) (o : Order) (d : DiscountEntry) :
    Option (String × ℚ × ℚ) :=
  (codeOf d).map (fun c => (c, discountAmountDCA o.total_price d, o.total_price))

/-- The records an order contributes: its list-typed discount entries that
carry a code; a NULL, non-list or empty value contributes nothing. -/
def orderRecords (codeOf : DiscountEntry → Option String) (o : Order) :
    List (String × ℚ × ℚ) :=
  match o.discount_applications with
  | some (.jlist ds) => ds.filterMap (entryRecord codeOf o)
  | _ => []

/-- One aggregation step of the per-code map over an extracted record. -/
def recStep (m : List (String × CodeStats)) (r : String × ℚ × ℚ) :
    List (String × CodeStats) :=
  updateCodeMap m r.1 r.2.1 r.2.2

/-- Aggregate stats of one code over a record list: usage count, amount sum,
order-total sum. -/
def aggStats (recs : List (String × ℚ × ℚ)) (c : String) : CodeStats :=
  ⟨(recs.filter (fun r => r.1 == c)).length,
   ((recs.filter (fun r => r.1 == c)).map (fun r => r.2.1)).sum,
   ((recs.filter (fun r => r.1 == c)).map (fun r => r.2.2)).sum⟩

/-- The per-code aggregation of a record list, keyed in first-appearance
order. -/
def aggMap (recs : List (String × ℚ × ℚ)) : List (String × CodeStats) :=
  (firstOccurStr (recs.map (fun r => r.1))).map (fun c => (c, aggStats recs c))

/-- A discount entry with an empty title and no other identifying field. -/
def entryEmptyTitle : DiscountEntry := ⟨none, none, none, none, none, none, some ""⟩

/-- A store with one in-range order carrying only `entryEmptyTitle`. -/
def dbEmptyTitle : DB :=
  ⟨[⟨1, 1, none, 100, some 10, 10, none, some (.jlist [entryEmptyTitle]), none⟩],
    [], [], [], [], [], []⟩

/-- A store with no orders but a 10.00 ad spend on day 0. -/
def dbAdOnly : DB := ⟨[], [], [], [⟨1, 0, 10⟩], [], [], []⟩

/-- The metrics `calculate_net_profit` returns on `dbAdOnly` over day 0. -/
def mAdOnly : ProfitMetrics := ⟨0, 0, 0, -10, 0, 0, 0, 10, 0, 0, 0⟩

/-- The state left by the first materializer run on `dbW1`. -/
def dbW1Mat : DB := setAnalytics dbW1 [⟨1, 0, 100, 1, 100, 484/5⟩]

/-! ### Helper lemmas -/

/-- The profit aggregator never reads the analytics table. -/
theorem cnp_set_analytics (db : DB) (X : List DailySalesAnalytics) (store s e : Nat) :
    calculate_net_profit (setAnalytics db X) store s e =
      calculate_net_profit db store s e := rfl

/-- The day metrics query never reads the analytics table. -/
theorem dayOrders_set_analytics (db : DB) (X : List DailySalesAnalytics) (store t : Nat) :
    dayOrders (setAnalytics db X) store t = dayOrders db store t := rfl

/-- Normal form of `process_daily_analytics`, by cases on the key lookup. -/
theorem pd_eq (db : DB) (store target : Nat) :
    process_daily_analytics db store target =
      (match db.analytics.filter (keyMatch store target) with
       | [] => (calculate_net_profit db store (dayStart target) (dayEnd target)).map
           (fun pm => setAnalytics db (db.analytics ++
             [⟨store, target, pdSales db store target, pdCount db store target,
               pdAov db store target, pm.net_profit⟩]))
       | [_] => (calculate_net_profit db store (dayStart target) (dayEnd target)).map
           (fun pm => setAnalytics db
             (db.analytics.map (pdUpd db store target pm.net_profit)))
       | _ => Except.error .multipleResultsFound) := by
  unfold process_daily_analytics
  cases hfa : db.analytics.filter (keyMatch store target) with
  | nil =>
      cases hc : calculate_net_profit db store (dayStart target) (dayEnd target) with
      | ok pm =>
          simp [hc, Bind.bind, Except.bind, Except.map, setAnalytics, pdSales, pdCount, pdAov]
      | error ex => simp [hc, Bind.bind, Except.bind, Except.map]
  | cons r rest =>
      cases rest with
      | nil =>
          cases hc : calculate_net_profit db store (dayStart target) (dayEnd target) with
          | ok pm =>
              simp [hc, Bind.bind, Except.bind, Except.map, setAnalytics, pdSales, pdCount,
                pdAov, pdUpd]
          | error ex => simp [hc, Bind.bind, Except.bind, Except.map]
      | cons r2 rest2 => rfl

/-! ### Claim C1 -/

/-- Claim C1: for every store and date range, whenever `calculate_net_profit`
returns a result, the result satisfies exactly (in decimal arithmetic, with
no rounding drift): `net_revenue = gross_revenue - total_refunds -
total_discounts`, `gross_profit = net_revenue - total_cogs`, `net_profit =
gross_profit - total_shipping_cost - total_transaction_fees - total_ad_spend
- total_other_costs`, and `total_refunds = 0`. -/
theorem c1_profit_waterfall (db : DB) (store s e : Nat) (m : ProfitMetrics)
    (h : calculate_net_profit db store s e = .ok m) :
    m.net_revenue = m.gross_revenue - m.total_refunds - m.total_discounts ∧
    m.gross_profit = m.net_revenue - m.total_cogs ∧
    m.net_profit = m.gross_profit - m.total_shipping_cost - m.total_transaction_fees
      - m.total_ad_spend - m.total_other_costs ∧
    m.total_refunds = 0 := by
  unfold calculate_net_profit at h
  cases hd : calcTotalDiscounts db store s e with
  | error ex => rw [hd] at h; simp [Except.map] at h
  | ok td =>
      rw [hd] at h
      simp only [Except.map, Except.ok.injEq] at h
      subst h
      exact ⟨rfl, rfl, rfl, rfl⟩

/-- Witness for C1 at a concrete input. -/
theorem c1_profit_waterfall_witness :
    mW1.net_revenue = mW1.gross_revenue - mW1.total_refunds - mW1.total_discounts ∧
    mW1.gross_profit = mW1.net_revenue - mW1.total_cogs ∧
    mW1.net_profit = mW1.gross_profit - mW1.total_shipping_cost - mW1.total_transaction_fees
      - mW1.total_ad_spend - mW1.total_other_costs ∧
    mW1.total_refunds = 0 :=
  c1_profit_waterfall dbW1 1 0 99 mW1 (by decide)

/-! ### Claim C8 -/

/-- Claim C8: the `total_transaction_fees` field of any `calculate_net_profit`
result equals exactly 2.9% of the total price sum of in-range orders plus
$0.30 per in-range order, and the whole computation is independent of the
contents of the transaction fee rule table. -/
theorem c8_flat_transaction_fees (db : DB) (store s e : Nat) (m : ProfitMetrics)
    (h : calculate_net_profit db store s e = .ok m) :
    m.total_transaction_fees =
      ((ordersInRange db store s e).map (fun o => o.total_price)).sum * (29 / 1000)
        + (3 / 10) * ((ordersInRange db store s e).length : ℚ) ∧
    ∀ rules : List TransactionFeeRule,
      calculate_net_profit { db with feeRules := rules } store s e
        = calculate_net_profit db store s e := by
  constructor
  · unfold calculate_net_profit at h
    cases hd : calcTotalDiscounts db store s e with
    | error ex => rw [hd] at h; simp [Except.map] at h
    | ok td =>
        rw [hd] at h
        simp only [Except.map, Except.ok.injEq] at h
        subst h
        rfl
  · intro rules
    rfl

/-- Witness for C8 at a concrete input. -/
theorem c8_flat_transaction_fees_witness :
    mW1.total_transaction_fees =
      ((ordersInRange dbW1 1 0 99).map (fun o => o.total_price)).sum * (29 / 1000)
        + (3 / 10) * ((ordersInRange dbW1 1 0 99).length : ℚ) ∧
    ∀ rules : List TransactionFeeRule,
      calculate_net_profit { dbW1 with feeRules := rules } 1 0 99
        = calculate_net_profit dbW1 1 0 99 :=
  c8_flat_transaction_fees dbW1 1 0 99 mW1 (by decide)

/-! ### Claim C3 -/

/-- Claim C3 (code bug): on an entry whose designated field fails to parse,
the discount-totaling pass of `calculate_net_profit` does not fall back to
amount 0 — `Decimal(str(…))` raises `decimal.InvalidOperation`, which the
`except (ValueError, TypeError)` clause does not catch, and
`calculate_net_profit` propagates the exception instead of returning. -/
theorem c3_malformed_amount_raises :
    discountAmountPC 100 entryBadAmount = .error .invalidOperation ∧
    calculate_net_profit dbBadDiscount 1 0 99 = .error .invalidOperation := by
  exact ⟨rfl, by decide⟩

/-! ### Claim C9 -/

/-- Claim C9 (code bug): the two per-entry discount-amount passes are not
numerically consistent on every input — on a malformed `amount` field the
discount-code-attribution pass (which also catches `InvalidOperation`)
yields 0 while the discount-totaling pass of `calculate_net_profit` raises;
they do agree whenever the shared try-block parses successfully. -/
theorem c9_passes_disagree_on_malformed :
    (∀ tp d q, discountAmountTry tp d = some q →
      discountAmountPC tp d = .ok q ∧ discountAmountDCA tp d = q) ∧
    discountAmountPC 100 entryBadAmount = .error .invalidOperation ∧
    discountAmountDCA 100 entryBadAmount = 0 := by
  refine ⟨?_, rfl, rfl⟩
  intro tp d q hq
  unfold discountAmountPC discountAmountDCA
  rw [hq]
  exact ⟨rfl, rfl⟩

/-- Witness for C9: the agreement part instantiated on a parsable entry. -/
theorem c9_witness :
    discountAmountPC 100 (⟨some (.numeric 7), none, none, none, none, none, none⟩ : DiscountEntry)
        = .ok 7 ∧
    discountAmountDCA 100 (⟨some (.numeric 7), none, none, none, none, none, none⟩ : DiscountEntry)
        = 7 :=
  c9_passes_disagree_on_malformed.1 100 ⟨some (.numeric 7), none, none, none, none, none, none⟩ 7 rfl

/-! ### Claim C2 -/

/-- The row-update function preserves the lookup key columns. -/
theorem keyMatch_pdUpd (db : DB) (store target : Nat) (p : ℚ) (s d : Nat)
    (r : DailySalesAnalytics) :
    keyMatch s d (pdUpd db store target p r) = keyMatch s d r := by
  unfold pdUpd
  split <;> rfl

/-- The key filter commutes with the update branch's in-place map. -/
theorem filter_map_pdUpd (db : DB) (store target : Nat) (p : ℚ) (s d : Nat)
    (A : List DailySalesAnalytics) :
    (A.map (pdUpd db store target p)).filter (keyMatch s d) =
      (A.filter (keyMatch s d)).map (pdUpd db store target p) := by
  rw [List.filter_map]
  have hcomp : (keyMatch s d ∘ pdUpd db store target p) = keyMatch s d :=
    funext fun r => keyMatch_pdUpd db store target p s d r
  rw [hcomp]

/-- A metric overwrite on a row matching the lookup key rebuilds exactly the
freshly-inserted row. -/
theorem updMetrics_of_keyMatch (store target : Nat) (ts : ℚ) (tc : Nat) (aov p : ℚ)
    (r : DailySalesAnalytics) (hk : keyMatch store target r = true) :
    updMetrics ts tc aov p r = ⟨store, target, ts, tc, aov, p⟩ := by
  cases r with
  | mk rs rd a b c q =>
      simp only [keyMatch, Bool.and_eq_true, beq_iff_eq] at hk
      obtain ⟨h1, h2⟩ := hk
      subst h1
      subst h2
      rfl

/-- A successful materializer run leaves exactly one `(store, target)` row,
whose metric fields are the cancelled-filtered day metrics and the profit
aggregator's `net_profit`. -/
theorem pd_ok_row (db : DB) (store target : Nat) (db1 : DB)
    (h : process_daily_analytics db store target = Except.ok db1) :
    ∃ pm, calculate_net_profit db store (dayStart target) (dayEnd target) = Except.ok pm ∧
      db1.analytics.filter (keyMatch store target) =
        [⟨store, target, pdSales db store target, pdCount db store target,
          pdAov db store target, pm.net_profit⟩] := by
  rw [pd_eq] at h
  cases hfa : db.analytics.filter (keyMatch store target) with
  | nil =>
      rw [hfa] at h
      cases hc : calculate_net_profit db store (dayStart target) (dayEnd target) with
      | error ex => rw [hc] at h; simp [Except.map] at h
      | ok pm =>
          rw [hc] at h
          simp only [Except.map, Except.ok.injEq] at h
          subst h
          refine ⟨pm, rfl, ?_⟩
          show (db.analytics ++ [_]).filter _ = _
          rw [List.filter_append, hfa]
          simp [keyMatch]
  | cons r rest =>
      cases rest with
      | nil =>
          rw [hfa] at h
          cases hc : calculate_net_profit db store (dayStart target) (dayEnd target) with
          | error ex => rw [hc] at h; simp [Except.map] at h
          | ok pm =>
              rw [hc] at h
              simp only [Except.map, Except.ok.injEq] at h
              subst h
              refine ⟨pm, rfl, ?_⟩
              show (db.analytics.map (pdUpd db store target pm.net_profit)).filter _ = _
              rw [filter_map_pdUpd, hfa]
              have hkr : keyMatch store target r = true := by
                have hmem : r ∈ db.analytics.filter (keyMatch store target) := by
                  rw [hfa]; exact List.mem_singleton.mpr rfl
                exact (List.mem_filter.mp hmem).2
              simp only [List.map_cons, List.map_nil, pdUpd, hkr, if_pos]
              rw [updMetrics_of_keyMatch store target _ _ _ _ r hkr]
      | cons r2 rest2 =>
          rw [hfa] at h
          simp at h

/-- `foldlM` over a mapped list folds the composed body. -/
theorem foldlM_map_body {m : Type _ → Type _} [Monad m] [LawfulMonad m] (f : β → γ)
    (step : α → γ → m α) (l : List β) (init : α) :
    (l.map f).foldlM step init = l.foldlM (fun a b => step a (f b)) init := by
  induction l generalizing init with
  | nil => rfl
  | cons x xs ih => simp only [List.map_cons, List.foldlM_cons]; exact congrArg _ (funext fun a => ih a)

/-- Rewriting `cancelled_at` commutes with the in-range order query. -/
theorem ordersInRange_mapCancelled (g : Order → Option Nat) (db : DB) (store s e : Nat) :
    ordersInRange (mapCancelled g db) store s e =
      (ordersInRange db store s e).map (setCancelled g) := by
  show (db.orders.map (setCancelled g)).filter _ = _
  rw [List.filter_map]
  rfl

/-- Gross revenue never consults `cancelled_at`. -/
theorem grossRevenueInRange_mapCancelled (g : Order → Option Nat) (db : DB) (store s e : Nat) :
    grossRevenueInRange (mapCancelled g db) store s e = grossRevenueInRange db store s e := by
  unfold grossRevenueInRange
  rw [ordersInRange_mapCancelled, List.map_map]
  rfl

/-- The discount totaling pass never consults `cancelled_at`. -/
theorem calcTotalDiscounts_mapCancelled (g : Order → Option Nat) (db : DB) (store s e : Nat) :
    calcTotalDiscounts (mapCancelled g db) store s e = calcTotalDiscounts db store s e := by
  unfold calcTotalDiscounts
  show ((db.orders.map (setCancelled g)).filter _).foldlM _ _ = _
  rw [List.filter_map, foldlM_map_body]
  rfl

/-- The order-join multiplicity never consults `cancelled_at`. -/
theorem orderJoinCount_mapCancelled (g : Order → Option Nat) (db : DB) (store s e : Nat)
    (li : LineItem) :
    orderJoinCount (mapCancelled g db) store s e li = orderJoinCount db store s e li := by
  show (db.orders.map (setCancelled g)).countP _ = _
  rw [List.countP_map]
  rfl

/-- The per-line-item COGS never consults orders at all. -/
theorem liCogs_mapCancelled (g : Order → Option Nat) (db : DB) (li : LineItem) :
    liCogs (mapCancelled g db) li = liCogs db li := rfl

/-- The COGS reader never consults `cancelled_at`. -/
theorem calcTotalCogs_mapCancelled (g : Order → Option Nat) (db : DB) (store s e : Nat) :
    calcTotalCogs (mapCancelled g db) store s e = calcTotalCogs db store s e := by
  unfold calcTotalCogs
  simp only [orderJoinCount_mapCancelled, liCogs_mapCancelled]
  rfl

/-- The shipping reader never consults `cancelled_at`. -/
theorem calcShippingCosts_mapCancelled (g : Order → Option Nat) (db : DB) (store s e : Nat) :
    calcShippingCosts (mapCancelled g db) store s e = calcShippingCosts db store s e := by
  unfold calcShippingCosts
  rw [ordersInRange_mapCancelled, List.map_map]
  rfl

/-- The transaction fee reader never consults `cancelled_at`. -/
theorem calcTransactionFees_mapCancelled (g : Order → Option Nat) (db : DB) (store s e : Nat) :
    calcTransactionFees (mapCancelled g db) store s e = calcTransactionFees db store s e := by
  unfold calcTransactionFees
  rw [ordersInRange_mapCancelled, List.map_map, List.length_map]
  rfl

/-- `calculate_net_profit` is invariant under any rewrite of every order's
`cancelled_at` column: the profit aggregator never consults cancellation. -/
theorem cnp_mapCancelled (g : Order → Option Nat) (db : DB) (store s e : Nat) :
    calculate_net_profit (mapCancelled g db) store s e =
      calculate_net_profit db store s e := by
  unfold calculate_net_profit
  rw [grossRevenueInRange_mapCancelled, calcTotalDiscounts_mapCancelled]
  simp only [calcTotalCogs_mapCancelled, calcShippingCosts_mapCancelled,
    calcTransactionFees_mapCancelled]
  rfl

/-- Claim C2, counterexample: in `dbCancelled` the only order of the day is
cancelled; the materialized row has `total_sales = 0`, `total_orders = 0`,
`average_order_value = 0`, yet `profit = 96.80`, whereas with the cancelled
order removed (`dbNoOrders`) the materialized profit is `0` — the cancelled
order does contribute to the upserted `profit` field. -/
theorem c2_counterexample :
    process_daily_analytics dbCancelled 1 0 =
      Except.ok (setAnalytics dbCancelled [⟨1, 0, 0, 0, 0, 484/5⟩]) ∧
    process_daily_analytics dbNoOrders 1 0 =
      Except.ok (setAnalytics dbNoOrders [⟨1, 0, 0, 0, 0, 0⟩]) := by decide

/-- Claim C2 (amended): an order with `cancelled_at` set is excluded from
`total_sales`, `total_orders` and `average_order_value` of the upserted row
(they are computed over `dayOrders`, which keeps only non-cancelled orders
of the day), but not from the `profit` field: `profit` is the profit
aggregator's `net_profit` over the day's `processed_at` span, and that
aggregator is invariant under arbitrary rewrites of the `cancelled_at`
column, so a cancelled order still contributes to `profit`. -/
theorem c2_cancelled_rollup_amended :
    (∀ db store target db1, process_daily_analytics db store target = Except.ok db1 →
      ∃ pm, calculate_net_profit db store (dayStart target) (dayEnd target) = Except.ok pm ∧
        db1.analytics.filter (keyMatch store target) =
          [⟨store, target, pdSales db store target, pdCount db store target,
            pdAov db store target, pm.net_profit⟩]) ∧
    (∀ g db store s e,
      calculate_net_profit (mapCancelled g db) store s e =
        calculate_net_profit db store s e) :=
  ⟨fun db store target db1 h => pd_ok_row db store target db1 h,
   fun g db store s e => cnp_mapCancelled g db store s e⟩

/-- Witness for the amended C2 at a concrete input. -/
theorem c2_cancelled_rollup_amended_witness :
    (∃ pm, calculate_net_profit dbCancelled 1 (dayStart 0) (dayEnd 0) = Except.ok pm ∧
      (setAnalytics dbCancelled [⟨1, 0, 0, 0, 0, 484/5⟩]).analytics.filter (keyMatch 1 0) =
        [⟨1, 0, pdSales dbCancelled 1 0, pdCount dbCancelled 1 0,
          pdAov dbCancelled 1 0, pm.net_profit⟩]) ∧
    calculate_net_profit (mapCancelled (fun _ => none) dbCancelled) 1 0 99 =
      calculate_net_profit dbCancelled 1 0 99 :=
  ⟨c2_cancelled_rollup_amended.1 dbCancelled 1 0
     (setAnalytics dbCancelled [⟨1, 0, 0, 0, 0, 484/5⟩]) (by decide),
   c2_cancelled_rollup_amended.2 (fun _ => none) dbCancelled 1 0 99⟩

/-! ### Claim C10 -/

/-- Metric overwrites keep the lookup key. -/
theorem keyMatch_updMetrics (s d : Nat) (ts : ℚ) (tc : Nat) (aov p : ℚ)
    (r : DailySalesAnalytics) :
    keyMatch s d (updMetrics ts tc aov p r) = keyMatch s d r := rfl

/-- Claim C10: for a day with no non-cancelled created orders, the
materializer still upserts the `(store, target)` row — `total_sales = 0`,
`total_orders = 0`, `average_order_value = 0` (the guarded division is never
taken), and `profit` is the profit aggregator's `net_profit` for the day,
whatever its sign. -/
theorem c10_empty_day_upserts (db : DB) (store target : Nat) (pm : ProfitMetrics)
    (hlen : (db.analytics.filter (keyMatch store target)).length ≤ 1)
    (hc : calculate_net_profit db store (dayStart target) (dayEnd target) = Except.ok pm) :
    ∃ db1, process_daily_analytics db store target = Except.ok db1 ∧
      (dayOrders db store target = [] →
        db1.analytics.filter (keyMatch store target) =
          [⟨store, target, 0, 0, 0, pm.net_profit⟩]) := by
  have hrun : ∃ db1, process_daily_analytics db store target = Except.ok db1 := by
    rw [pd_eq]
    cases hfa : db.analytics.filter (keyMatch store target) with
    | nil => exact ⟨_, by rw [hc]; rfl⟩
    | cons r rest =>
        cases rest with
        | nil => exact ⟨_, by rw [hc]; rfl⟩
        | cons r2 rest2 => rw [hfa] at hlen; simp at hlen
  obtain ⟨db1, hdb1⟩ := hrun
  refine ⟨db1, hdb1, fun hno => ?_⟩
  obtain ⟨pm2, hc2, hfilter⟩ := pd_ok_row db store target db1 hdb1
  rw [hc] at hc2
  injection hc2 with hpm
  subst hpm
  have h1 : pdSales db store target = 0 := by unfold pdSales; rw [hno]; rfl
  have h2 : pdCount db store target = 0 := by unfold pdCount; rw [hno]; rfl
  have h3 : pdAov db store target = 0 := by unfold pdAov; rw [h2]; rfl
  rw [hfilter, h1, h2, h3]

/-- Witness for C10: an empty day with ad spend stores a negative profit. -/
theorem c10_empty_day_upserts_witness :
    (∃ db1, process_daily_analytics dbAdOnly 1 0 = Except.ok db1 ∧
      (dayOrders dbAdOnly 1 0 = [] →
        db1.analytics.filter (keyMatch 1 0) = [⟨1, 0, 0, 0, 0, mAdOnly.net_profit⟩])) ∧
    mAdOnly.net_profit < 0 :=
  ⟨c10_empty_day_upserts dbAdOnly 1 0 mAdOnly (by decide) (by decide),
   by norm_num [mAdOnly]⟩

/-! ### Claim C5 -/

/-- Re-pointing the analytics table does not change the day metrics. -/
theorem pdSales_setAnalytics (db : DB) (X : List DailySalesAnalytics) (store target : Nat) :
    pdSales (setAnalytics db X) store target = pdSales db store target := rfl

/-- Re-pointing the analytics table does not change the update function. -/
theorem pdUpd_setAnalytics (db : DB) (X : List DailySalesAnalytics) (store target : Nat)
    (p : ℚ) :
    pdUpd (setAnalytics db X) store target p = pdUpd db store target p := rfl

/-- Overwriting with the same metric values twice equals overwriting once. -/
theorem updMetrics_updMetrics (ts : ℚ) (tc : Nat) (aov p : ℚ) (r : DailySalesAnalytics) :
    updMetrics ts tc aov p (updMetrics ts tc aov p r) = updMetrics ts tc aov p r := rfl

/-- The update branch's row function is idempotent. -/
theorem pdUpd_idem (db : DB) (store target : Nat) (p : ℚ) (r : DailySalesAnalytics) :
    pdUpd db store target p (pdUpd db store target p r) = pdUpd db store target p r := by
  by_cases hk : keyMatch store target r = true
  · simp [pdUpd, hk, keyMatch_updMetrics, updMetrics_updMetrics]
  · simp [pdUpd, hk]

/-- Mapping a function that fixes every member is the identity. -/
theorem map_eq_self_of {α} (u : α → α) (l : List α) (h : ∀ a ∈ l, u a = a) :
    l.map u = l := by
  induction l with
  | nil => rfl
  | cons x xs ih =>
      simp only [List.map_cons]
      rw [h x (List.mem_cons_self x xs), ih (fun a ha => h a (List.mem_cons_of_mem x ha))]

/-- Replacing the analytics table by itself is the identity. -/
theorem setAnalytics_self (db : DB) : setAnalytics db db.analytics = db := rfl

/-- Claim C5: running the materializer a second time for the same
`(store, date)` with unchanged underlying orders returns the stored state
unchanged — the second call finds the row written by the first call and
overwrites it in place with the same four values, inserting no duplicate —
and the first call never deletes rows: it either updates in place (same row
count) or inserts exactly one new row. -/
theorem c5_materializer_idempotent (db : DB) (store target : Nat) (db1 : DB)
    (h : process_daily_analytics db store target = Except.ok db1) :
    process_daily_analytics db1 store target = Except.ok db1 ∧
    (db1.analytics.length = db.analytics.length ∨
      db1.analytics.length = db.analytics.length + 1) := by
  rw [pd_eq] at h
  cases hfa : db.analytics.filter (keyMatch store target) with
  | nil =>
      rw [hfa] at h
      cases hc : calculate_net_profit db store (dayStart target) (dayEnd target) with
      | error ex => rw [hc] at h; simp [Except.map] at h
      | ok pm =>
          rw [hc] at h
          simp only [Except.map, Except.ok.injEq] at h
          subst h
          constructor
          · rw [pd_eq]
            have hfilter : (setAnalytics db (db.analytics ++
                [⟨store, target, pdSales db store target, pdCount db store target,
                  pdAov db store target, pm.net_profit⟩])).analytics.filter
                  (keyMatch store target) =
                [⟨store, target, pdSales db store target, pdCount db store target,
                  pdAov db store target, pm.net_profit⟩] := by
              show (db.analytics ++ [_]).filter _ = _
              rw [List.filter_append, hfa]
              simp [keyMatch]
            rw [hfilter, cnp_set_analytics, hc]
            simp only [Except.map, Except.ok.injEq]
            rw [pdUpd_setAnalytics]
            have hmap : (db.analytics ++
                ([⟨store, target, pdSales db store target, pdCount db store target,
                  pdAov db store target, pm.net_profit⟩] : List DailySalesAnalytics)).map
                  (pdUpd db store target pm.net_profit) =
                db.analytics ++
                [⟨store, target, pdSales db store target, pdCount db store target,
                  pdAov db store target, pm.net_profit⟩] := by
              apply map_eq_self_of
              intro a ha
              rcases List.mem_append.mp ha with hmem | hmem
              · have hnk : ¬ keyMatch store target a = true :=
                  List.filter_eq_nil_iff.mp hfa a hmem
                simp [pdUpd, hnk]
              · have hro : a = ⟨store, target, pdSales db store target,
                    pdCount db store target, pdAov db store target, pm.net_profit⟩ := by
                  simpa using hmem
                subst hro
                simp [pdUpd, keyMatch, updMetrics]
            dsimp only [setAnalytics]
            rw [hmap]
          · right
            show (db.analytics ++ [_]).length = _
            simp
  | cons r rest =>
      cases rest with
      | nil =>
          rw [hfa] at h
          cases hc : calculate_net_profit db store (dayStart target) (dayEnd target) with
          | error ex => rw [hc] at h; simp [Except.map] at h
          | ok pm =>
              rw [hc] at h
              simp only [Except.map, Except.ok.injEq] at h
              subst h
              constructor
              · rw [pd_eq]
                have hfilter : (setAnalytics db (db.analytics.map
                    (pdUpd db store target pm.net_profit))).analytics.filter
                      (keyMatch store target) =
                    [pdUpd db store target pm.net_profit r] := by
                  show (db.analytics.map _).filter _ = _
                  rw [filter_map_pdUpd, hfa]
                  rfl
                rw [hfilter, cnp_set_analytics, hc]
                simp only [Except.map, Except.ok.injEq]
                rw [pdUpd_setAnalytics]
                dsimp only [setAnalytics]
                rw [List.map_map]
                have hcomp : (db.analytics.map
                    (pdUpd db store target pm.net_profit ∘
                      pdUpd db store target pm.net_profit)) =
                    db.analytics.map (pdUpd db store target pm.net_profit) := by
                  apply List.map_congr_left
                  intro a _
                  exact pdUpd_idem db store target pm.net_profit a
                rw [hcomp]
              · left
                show (db.analytics.map _).length = _
                simp
      | cons r2 rest2 =>
          rw [hfa] at h
          simp at h

/-- Witness for C5 at a concrete input. -/
theorem c5_materializer_idempotent_witness :
    process_daily_analytics dbW1Mat 1 0 = Except.ok dbW1Mat ∧
    (dbW1Mat.analytics.length = dbW1.analytics.length ∨
      dbW1Mat.analytics.length = dbW1.analytics.length + 1) :=
  c5_materializer_idempotent dbW1 1 0 dbW1Mat (by decide)

/-! ### Claim C6 -/

/-- A successful materializer run leaves the order tables untouched, leaves
exactly one row under the target key, and leaves the rows under every other
key exactly as they were (it never deletes). -/
theorem pd_preserves (db : DB) (store target : Nat) (db1 : DB)
    (h : process_daily_analytics db store target = Except.ok db1) :
    db1.orders = db.orders ∧
    (db1.analytics.filter (keyMatch store target)).length = 1 ∧
    ∀ s d, ¬(s = store ∧ d = target) →
      db1.analytics.filter (keyMatch s d) = db.analytics.filter (keyMatch s d) := by
  rw [pd_eq] at h
  cases hfa : db.analytics.filter (keyMatch store target) with
  | nil =>
      rw [hfa] at h
      cases hc : calculate_net_profit db store (dayStart target) (dayEnd target) with
      | error ex => rw [hc] at h; simp [Except.map] at h
      | ok pm =>
          rw [hc] at h
          simp only [Except.map, Except.ok.injEq] at h
          subst h
          refine ⟨rfl, ?_, ?_⟩
          · show ((db.analytics ++ [_]).filter _).length = 1
            rw [List.filter_append, hfa]
            simp [keyMatch]
          · intro s d hne
            show (db.analytics ++ [_]).filter _ = _
            rw [List.filter_append]
            have hrow : keyMatch s d (⟨store, target, pdSales db store target,
                pdCount db store target, pdAov db store target,
                pm.net_profit⟩ : DailySalesAnalytics) = false := by
              simp only [keyMatch, Bool.and_eq_false_iff, beq_eq_false_iff_ne, ne_eq]
              by_cases hs : store = s
              · subst hs
                exact Or.inr fun hdd => hne ⟨rfl, hdd.symm⟩
              · exact Or.inl hs
            simp [hrow]
  | cons r rest =>
      cases rest with
      | nil =>
          rw [hfa] at h
          cases hc : calculate_net_profit db store (dayStart target) (dayEnd target) with
          | error ex => rw [hc] at h; simp [Except.map] at h
          | ok pm =>
              rw [hc] at h
              simp only [Except.map, Except.ok.injEq] at h
              subst h
              refine ⟨rfl, ?_, ?_⟩
              · show ((db.analytics.map _).filter _).length = 1
                rw [filter_map_pdUpd, hfa]
                rfl
              · intro s d hne
                show (db.analytics.map _).filter _ = _
                rw [filter_map_pdUpd]
                apply map_eq_self_of
                intro a ha
                obtain ⟨-, hkey⟩ := List.mem_filter.mp ha
                obtain ⟨ha1, ha2⟩ : a.store_id = s ∧ a.date = d := by
                  simpa [keyMatch] using hkey
                have hb : keyMatch store target a = false := by
                  simp only [keyMatch, Bool.and_eq_false_iff, beq_eq_false_iff_ne, ne_eq]
                  rw [ha1, ha2]
                  by_cases hs : s = store
                  · subst hs
                    exact Or.inr fun hdd => hne ⟨rfl, hdd⟩
                  · exact Or.inl hs
                simp [pdUpd, hb]
      | cons r2 rest2 =>
          rw [hfa] at h
          simp at h

/-- Folding the day materializer over a date list: on success, every visited
date holds exactly one row, and unvisited dates keep their rows. -/
theorem range_fold_rows (store : Nat) (ds : List Nat) :
    ∀ (cur db1 : DB),
      ds.foldlM (fun c d => process_daily_analytics c store d) cur = Except.ok db1 →
      (∀ d ∈ ds, (db1.analytics.filter (keyMatch store d)).length = 1) ∧
      (∀ d, d ∉ ds → db1.analytics.filter (keyMatch store d) =
        cur.analytics.filter (keyMatch store d)) := by
  induction ds with
  | nil =>
      intro cur db1 h
      simp only [List.foldlM_nil, pure, Except.pure, Except.ok.injEq] at h
      subst h
      exact ⟨by simp, fun d _ => rfl⟩
  | cons a as ih =>
      intro cur db1 h
      rw [List.foldlM_cons] at h
      cases hstep : process_daily_analytics cur store a with
      | error ex => rw [hstep] at h; simp [Bind.bind, Except.bind] at h
      | ok cur1 =>
          rw [hstep] at h
          simp only [Bind.bind, Except.bind] at h
          obtain ⟨hrest1, hrest2⟩ := ih cur1 db1 h
          obtain ⟨-, hlen1, hpres⟩ := pd_preserves cur store a cur1 hstep
          constructor
          · intro d hd
            rcases List.mem_cons.mp hd with rfl | hdas
            · by_cases hmem : d ∈ as
              · exact hrest1 d hmem
              · rw [hrest2 d hmem]
                exact hlen1
            · exact hrest1 d hdas
          · intro d hd
            have hda : ¬ d = a := fun hh => hd (hh ▸ List.mem_cons_self a as)
            have hdas : d ∉ as := fun hh => hd (List.mem_cons_of_mem a hh)
            rw [hrest2 d hdas]
            exact hpres store d (fun hp => hda hp.2)

/-- Claim C6, counterexample: the range driver takes no date range, and a
parse exception while materializing the first grouped day (day 0 of
`dbRangeBad`) propagates out of the loop, so day 1 — which materializes fine
when the bad discount is removed (`dbRangeGood`) — is never attempted. -/
theorem c6_counterexample :
    process_all_store_analytics dbRangeBad 1 = Except.error .invalidOperation ∧
    process_all_store_analytics dbRangeGood 1 =
      Except.ok (setAnalytics dbRangeGood
        [⟨1, 0, 100, 1, 100, 484/5⟩, ⟨1, 1, 50, 1, 50, 193/4⟩]) := by decide

/-- Claim C6 (amended): `process_all_store_analytics` takes no start/end
range; it visits the distinct `platform_created_at` dates of the store's
non-cancelled orders, invoking the day materializer once per such date on
the state left by the previous days, and when the whole run succeeds every
visited date holds exactly one `(store, date)` analytics row; a failure on
one day propagates immediately and the remaining dates are not attempted. -/
theorem c6_range_driver_amended (db : DB) (store : Nat) (db1 : DB)
    (h : process_all_store_analytics db store = Except.ok db1) :
    ∀ d ∈ distinctOrderDates db store,
      (db1.analytics.filter (keyMatch store d)).length = 1 := by
  unfold process_all_store_analytics at h
  exact fun d hd => (range_fold_rows store (distinctOrderDates db store) db db1 h).1 d hd

/-- Witness for the amended C6 at a concrete input. -/
theorem c6_range_driver_amended_witness :
    ((setAnalytics dbRangeGood
        [⟨1, 0, 100, 1, 100, 484/5⟩, ⟨1, 1, 50, 1, 50, 193/4⟩]).analytics.filter
          (keyMatch 1 0)).length = 1 ∧
    ((setAnalytics dbRangeGood
        [⟨1, 0, 100, 1, 100, 484/5⟩, ⟨1, 1, 50, 1, 50, 193/4⟩]).analytics.filter
          (keyMatch 1 1)).length = 1 :=
  ⟨c6_range_driver_amended dbRangeGood 1 _ (by decide) 0 (by decide),
   c6_range_driver_amended dbRangeGood 1 _ (by decide) 1 (by decide)⟩

/-! ### Claim C7 -/

/-- The LTV profit loop is the sum of the per-order single-day net profits:
folding the accumulator succeeds exactly when every per-order aggregator
call succeeds, and then the result is the accumulator plus their sum. -/
theorem ltv_fold_mapM (db : DB) (store : Nat) :
    ∀ (l : List Order) (acc r : ℚ),
      l.foldlM (fun a x => (perOrderNet db store x).map (fun p => a + p)) acc =
        Except.ok r →
      ∃ ps : List ℚ, l.mapM (perOrderNet db store) = Except.ok ps ∧ r = acc + ps.sum := by
  intro l
  induction l with
  | nil =>
      intro acc r h
      simp only [List.foldlM_nil, pure, Except.pure, Except.ok.injEq] at h
      subst h
      exact ⟨[], rfl, by simp⟩
  | cons x xs ih =>
      intro acc r h
      rw [List.foldlM_cons] at h
      cases hx : perOrderNet db store x with
      | error ex => rw [hx] at h; simp [Except.map, Bind.bind, Except.bind] at h
      | ok p =>
          rw [hx] at h
          simp only [Except.map, Bind.bind, Except.bind] at h
          obtain ⟨ps, hps, hr⟩ := ih (acc + p) r h
          refine ⟨p :: ps, ?_, ?_⟩
          · rw [List.mapM_cons, hx, hps]
            rfl
          · rw [hr, List.sum_cons]
            ring

/-- Claim C7: with zero orders `resolve_customer_ltv` returns the explicit
all-zero, None-dates payload; with at least one order, `total_profit` is the
sum of the profit aggregator's `net_profit` invoked with
`start = end = processed_at` for each individual order, `net_profit_ltv`
aliases it, the averages divide the totals by the order count, and the
first/last order dates come from the extremes of the `processed_at`-ascending
order list. -/
theorem c7_customer_ltv (db : DB) (customer store : Nat) (m : CustomerLtvMetrics)
    (h : resolve_customer_ltv db customer store = Except.ok m) :
    (customerOrders db customer store = [] → m = emptyLtv customer) ∧
    (∀ o os, customerOrders db customer store = o :: os →
      ∃ ps : List ℚ, (o :: os).mapM (perOrderNet db store) = Except.ok ps ∧
        m.total_profit = ps.sum ∧
        m.net_profit_ltv = m.total_profit ∧
        m.total_orders = (o :: os).length ∧
        m.total_revenue = ((o :: os).map (fun x => x.total_price)).sum ∧
        m.average_order_value = m.total_revenue / ((o :: os).length : ℚ) ∧
        m.average_profit_per_order = m.total_profit / ((o :: os).length : ℚ) ∧
        (∃ tf, o.processed_at = some tf ∧ m.first_order_date = some (toDate tf)) ∧
        (∃ tl, ((o :: os).getLast (List.cons_ne_nil o os)).processed_at = some tl ∧
          m.last_order_date = some (toDate tl))) := by
  unfold resolve_customer_ltv at h
  cases horders : customerOrders db customer store with
  | nil =>
      rw [horders] at h
      simp only [Except.ok.injEq] at h
      subst h
      exact ⟨fun _ => rfl, fun o os hco => by simp at hco⟩
  | cons o os =>
      rw [horders] at h
      dsimp only at h
      constructor
      · intro hnil
        simp at hnil
      · intro o2 os2 hco
        injection hco with ho2 hos2
        subst ho2
        subst hos2
        cases hfold : (o :: os).foldlM
            (fun a x => (perOrderNet db store x).map (fun p => a + p)) (0 : ℚ) with
        | error ex => rw [hfold] at h; simp [Bind.bind, Except.bind] at h
        | ok tp =>
            rw [hfold] at h
            simp only [Bind.bind, Except.bind] at h
            cases hfd : processedDate o with
            | error ex => rw [hfd] at h; simp at h
            | ok fd =>
                rw [hfd] at h
                simp only at h
                cases hld : processedDate ((o :: os).getLast (List.cons_ne_nil o os)) with
                | error ex => rw [hld] at h; simp at h
                | ok ld =>
                    rw [hld] at h
                    simp only [Except.ok.injEq] at h
                    subst h
                    obtain ⟨ps, hps, htp⟩ := ltv_fold_mapM db store (o :: os) 0 tp hfold
                    refine ⟨ps, hps, ?_, rfl, rfl, rfl, ?_, ?_, ?_, ?_⟩
                    · show tp = ps.sum
                      rw [htp, zero_add]
                    · show (if (o :: os).length > 0 then _ else 0) = _
                      rw [if_pos (by simp)]
                    · show (if (o :: os).length > 0 then _ else 0) = _
                      rw [if_pos (by simp)]
                    · cases hpo : o.processed_at with
                      | none => unfold processedDate at hfd; rw [hpo] at hfd; cases hfd
                      | some tf =>
                          refine ⟨tf, rfl, ?_⟩
                          unfold processedDate at hfd
                          rw [hpo] at hfd
                          injection hfd with hfd2
                          rw [hfd2]
                    · cases hpl : ((o :: os).getLast (List.cons_ne_nil o os)).processed_at with
                      | none => unfold processedDate at hld; rw [hpl] at hld; cases hld
                      | some tl =>
                          refine ⟨tl, rfl, ?_⟩
                          unfold processedDate at hld
                          rw [hpl] at hld
                          injection hld with hld2
                          rw [hld2]

/-- Witness for C7 at a concrete input: two orders on distinct days. -/
theorem c7_customer_ltv_witness :
    ∃ ps : List ℚ, ([orderLtv1, orderLtv2] : List Order).mapM (perOrderNet dbLtv 1) =
        Except.ok ps ∧
      mLtv.total_profit = ps.sum ∧
      mLtv.net_profit_ltv = mLtv.total_profit ∧
      mLtv.total_orders = ([orderLtv1, orderLtv2] : List Order).length ∧
      mLtv.total_revenue = (([orderLtv1, orderLtv2] : List Order).map
        (fun x => x.total_price)).sum ∧
      mLtv.average_order_value =
        mLtv.total_revenue / (([orderLtv1, orderLtv2] : List Order).length : ℚ) ∧
      mLtv.average_profit_per_order =
        mLtv.total_profit / (([orderLtv1, orderLtv2] : List Order).length : ℚ) ∧
      (∃ tf, orderLtv1.processed_at = some tf ∧ mLtv.first_order_date = some (toDate tf)) ∧
      (∃ tl, (([orderLtv1, orderLtv2] : List Order).getLast
          (List.cons_ne_nil orderLtv1 [orderLtv2])).processed_at = some tl ∧
        mLtv.last_order_date = some (toDate tl)) :=
  (c7_customer_ltv dbLtv 5 1 mLtv (by decide)).2 orderLtv1 [orderLtv2] (by decide)

/-! ### Claim C4 -/

/-- The resolver's code-determination chain coincides with the amended
spec-side rule. -/
theorem codeOfEntry_eq_amended (d : DiscountEntry) :
    codeOfEntry d = specCodeOfEntryAmended d := by
  obtain ⟨am, va, pe, vt, ty, co, ti⟩ := d
  have hsynth :
      (if (ty == some "manual") && (Option.isSome ti) then
        some ("MANUAL: " ++ ti.getD "")
      else if (ty == some "automatic") && (Option.isSome ti) then
        some ("AUTO: " ++ ti.getD "")
      else if (match ti with | some t => t != "" | none => false) then
        some ((match ty with
          | some s => if s != "" then s.toUpper else "DISCOUNT"
          | none => "DISCOUNT") ++ ": " ++ ti.getD "")
      else none) =
      specCodeOfEntryAmended.specSynthA ty ti := by
    cases ti with
    | none => simp [specCodeOfEntryAmended.specSynthA]
    | some t =>
        simp only [Option.isSome, Bool.and_true, Option.getD,
          specCodeOfEntryAmended.specSynthA]
  cases co with
  | none =>
      show (if (ty == some "manual") && _ then _ else _) = _
      rw [hsynth]
      rfl
  | some c =>
      show (if c != "" then some c else _) = (if c != "" then some c else _)
      by_cases hc : (c != "") = true
      · rw [if_pos hc, if_pos hc]
      · rw [if_neg hc, if_neg hc]
        rw [hsynth]

/-- First-occurrence deduplication processes an appended element last. -/
theorem firstOccurStr_append_singleton (l : List String) (c : String) :
    firstOccurStr (l ++ [c]) =
      if (firstOccurStr l).contains c then firstOccurStr l
      else firstOccurStr l ++ [c] := by
  unfold firstOccurStr
  rw [List.foldl_append]
  rfl

/-- First-occurrence deduplication keeps exactly the members. -/
theorem mem_firstOccurStr (l : List String) :
    ∀ c, c ∈ firstOccurStr l ↔ c ∈ l := by
  induction l using List.reverseRecOn with
  | nil => exact fun c => Iff.rfl
  | append_singleton xs x ih =>
      intro c
      rw [firstOccurStr_append_singleton]
      by_cases hx : (firstOccurStr xs).contains x = true
      · rw [if_pos hx]
        have hxm : x ∈ xs := (ih x).mp (List.elem_iff.mp hx)
        rw [List.mem_append]
        constructor
        · intro hc
          exact Or.inl ((ih c).mp hc)
        · intro hc
          rcases hc with hc | hc
          · exact (ih c).mpr hc
          · have : c = x := by simpa using hc
            subst this
            exact (ih c).mpr hxm
      · rw [if_neg hx]
        rw [List.mem_append, List.mem_append]
        constructor
        · intro hc
          rcases hc with hc | hc
          · exact Or.inl ((ih c).mp hc)
          · exact Or.inr hc
        · intro hc
          rcases hc with hc | hc
          · exact Or.inl ((ih c).mpr hc)
          · exact Or.inr hc

/-- The new-code check of the map-update step over an aggregated map tests
membership in the key list. -/
theorem any_aggMap (recs : List (String × ℚ × ℚ)) (c : String) :
    ((aggMap recs).any (fun p => p.1 == c) = true) ↔
      c ∈ firstOccurStr (recs.map (fun r => r.1)) := by
  unfold aggMap
  simp [List.any_map, List.any_eq_true, Function.comp]

/-- Appending a record with code `c` bumps that code's aggregate by one use,
its amount, and its order total. -/
theorem aggStats_append_self (recs : List (String × ℚ × ℚ)) (c : String) (amt sales : ℚ) :
    aggStats (recs ++ [(c, amt, sales)]) c =
      ⟨(aggStats recs c).usage_count + 1,
       (aggStats recs c).total_discount_amount + amt,
       (aggStats recs c).total_sales_generated + sales⟩ := by
  unfold aggStats
  rw [List.filter_append]
  simp

/-- Appending a record with code `c` leaves other codes' aggregates alone. -/
theorem aggStats_append_other (recs : List (String × ℚ × ℚ)) (c k : String)
    (amt sales : ℚ) (hne : ¬ k = c) :
    aggStats (recs ++ [(c, amt, sales)]) k = aggStats recs k := by
  unfold aggStats
  rw [List.filter_append]
  have hck : ((c == k) : Bool) = false := beq_eq_false_iff_ne.mpr (fun h => hne h.symm)
  have : ([((c, amt, sales) : String × ℚ × ℚ)].filter (fun r => r.1 == k)) = [] := by
    simp [hck]
  rw [this]
  simp

/-- One map-update step on an aggregated map aggregates the appended record. -/
theorem recStep_aggMap (recs : List (String × ℚ × ℚ)) (r : String × ℚ × ℚ) :
    recStep (aggMap recs) r = aggMap (recs ++ [r]) := by
  obtain ⟨c, amt, sales⟩ := r
  have hkeys : (recs ++ [((c, amt, sales) : String × ℚ × ℚ)]).map (fun r => r.1) =
      recs.map (fun r => r.1) ++ [c] := by simp
  by_cases hc : c ∈ firstOccurStr (recs.map (fun r => r.1))
  · have hany : (aggMap recs).any (fun p => p.1 == c) = true := (any_aggMap recs c).mpr hc
    have hrhs : aggMap (recs ++ [(c, amt, sales)]) =
        (firstOccurStr (recs.map (fun r => r.1))).map
          (fun k => (k, aggStats (recs ++ [(c, amt, sales)]) k)) := by
      unfold aggMap
      rw [hkeys, firstOccurStr_append_singleton, if_pos (List.elem_iff.mpr hc)]
    rw [hrhs]
    show updateCodeMap (aggMap recs) c amt sales = _
    unfold updateCodeMap
    rw [hany]
    simp only [if_true]
    unfold aggMap
    rw [List.map_map]
    apply List.map_congr_left
    intro k hk
    show (fun p : String × CodeStats => if p.1 == c then
        (p.1, (⟨p.2.usage_count + 1, p.2.total_discount_amount + amt,
          p.2.total_sales_generated + sales⟩ : CodeStats)) else p) (k, aggStats recs k) =
      (k, aggStats (recs ++ [(c, amt, sales)]) k)
    by_cases hkc : k = c
    · subst hkc
      simp only [beq_self_eq_true, if_true]
      rw [aggStats_append_self]
    · have hbeq : ((k == c) : Bool) = false := beq_eq_false_iff_ne.mpr hkc
      simp only [hbeq, Bool.false_eq_true, if_false]
      rw [aggStats_append_other recs c k amt sales hkc]
  · have hany : (aggMap recs).any (fun p => p.1 == c) = false :=
      Bool.eq_false_iff.mpr (fun h => hc ((any_aggMap recs c).mp h))
    have hfilter_nil : recs.filter (fun rr => rr.1 == c) = [] := by
      rw [List.filter_eq_nil_iff]
      intro rr hm hbeq
      apply hc
      rw [mem_firstOccurStr]
      rw [beq_iff_eq] at hbeq
      exact hbeq ▸ List.mem_map_of_mem (fun r => r.1) hm
    have hzero : aggStats recs c = ⟨0, 0, 0⟩ := by
      unfold aggStats
      rw [hfilter_nil]
      rfl
    have hrhs : aggMap (recs ++ [(c, amt, sales)]) =
        (firstOccurStr (recs.map (fun r => r.1))).map
          (fun k => (k, aggStats (recs ++ [(c, amt, sales)]) k)) ++
        [(c, aggStats (recs ++ [(c, amt, sales)]) c)] := by
      unfold aggMap
      rw [hkeys, firstOccurStr_append_singleton,
        if_neg (fun h => hc (List.elem_iff.mp h)), List.map_append]
      rfl
    rw [hrhs]
    show updateCodeMap (aggMap recs) c amt sales = _
    unfold updateCodeMap
    rw [hany]
    simp only [Bool.false_eq_true, if_false, List.map_append]
    congr 1
    · unfold aggMap
      rw [List.map_map]
      apply List.map_congr_left
      intro k hk
      have hkc : ¬ k = c := fun hh => hc (hh ▸ hk)
      have hbeq : ((k == c) : Bool) = false := beq_eq_false_iff_ne.mpr hkc
      show (fun p : String × CodeStats => if p.1 == c then
          (p.1, (⟨p.2.usage_count + 1, p.2.total_discount_amount + amt,
            p.2.total_sales_generated + sales⟩ : CodeStats)) else p) (k, aggStats recs k) =
        (k, aggStats (recs ++ [(c, amt, sales)]) k)
      simp only [hbeq, Bool.false_eq_true, if_false]
      rw [aggStats_append_other recs c k amt sales hkc]
    · show [_] = [_]
      rw [aggStats_append_self, hzero]
      simp

/-- The left fold of map-update steps aggregates the whole record list. -/
theorem foldl_recStep_aggMap (recs : List (String × ℚ × ℚ)) :
    recs.foldl recStep [] = aggMap recs := by
  induction recs using List.reverseRecOn with
  | nil => rfl
  | append_singleton xs x ih =>
      rw [List.foldl_append]
      show recStep (xs.foldl recStep []) x = _
      rw [ih, recStep_aggMap]

/-- The entry loop of the resolver folds exactly the extracted records of
the order's entry list. -/
theorem inner_fold_records (o : Order) (ds : List DiscountEntry) :
    ∀ m0, ds.foldl (fun m d =>
        match codeOfEntry d with
        | some c => updateCodeMap m c (discountAmountDCA o.total_price d) o.total_price
        | none => m) m0 =
      (ds.filterMap (entryRecord codeOfEntry o)).foldl recStep m0 := by
  induction ds with
  | nil => intro m0; rfl
  | cons d ds ih =>
      intro m0
      rw [List.foldl_cons]
      cases hcd : codeOfEntry d with
      | none =>
          have hrec : entryRecord codeOfEntry o d = none := by
            unfold entryRecord; rw [hcd]; rfl
          simp only [List.filterMap_cons, hrec, hcd]
          exact ih m0
      | some c =>
          have hrec : entryRecord codeOfEntry o d =
              some (c, discountAmountDCA o.total_price d, o.total_price) := by
            unfold entryRecord; rw [hcd]; rfl
          simp only [List.filterMap_cons, hrec, hcd, List.foldl_cons]
          exact ih _

/-- The order loop of the resolver folds exactly the flattened records of
the in-range orders. -/
theorem outer_fold_records (os : List Order) :
    ∀ m0, os.foldl (fun m o =>
        match o.discount_applications with
        | some (.jlist ds) =>
            ds.foldl (fun m d =>
              match codeOfEntry d with
              | some c => updateCodeMap m c (discountAmountDCA o.total_price d) o.total_price
              | none => m) m
        | _ => m) m0 =
      ((os.map (orderRecords codeOfEntry)).flatten).foldl recStep m0 := by
  induction os with
  | nil => intro m0; rfl
  | cons o os ih =>
      intro m0
      rw [List.foldl_cons, List.map_cons, List.flatten_cons, List.foldl_append]
      cases happ : o.discount_applications with
      | none =>
          have hor : orderRecords codeOfEntry o = [] := by
            unfold orderRecords; rw [happ]
          rw [hor]
          exact ih m0
      | some apps =>
          cases apps with
          | jlist ds =>
              have hor : orderRecords codeOfEntry o = ds.filterMap (entryRecord codeOfEntry o) := by
                unfold orderRecords; rw [happ]
              rw [hor, ← inner_fold_records o ds m0]
              exact ih _
          | nonList =>
              have hor : orderRecords codeOfEntry o = [] := by
                unfold orderRecords; rw [happ]
              rw [hor]
              exact ih m0

/-- Claim C4 (amended): the discount code analytics resolver equals the
spec-side Discount Extractor with the amended code rule — per in-range order
and entry, determine the code (non-empty `code` field, else the
manual/automatic/type synthesis, where the generic branch also requires a
non-empty title), parse the amount with the shared catch-all parser,
accumulate per code usage, amount and the order's full total, and return the
aggregates stable-sorted by usage descending, truncated to the limit. -/
theorem c4_discount_code_analytics_amended (db : DB) (store sD eD lim : Nat) :
    resolve_discount_code_analytics db store sD eD lim =
      specDiscountCodeAnalytics specCodeOfEntryAmended db store sD eD lim := by
  have hfun : codeOfEntry = specCodeOfEntryAmended := funext codeOfEntry_eq_amended
  unfold resolve_discount_code_analytics specDiscountCodeAnalytics
  dsimp only
  rw [← hfun]
  rw [outer_fold_records, foldl_recStep_aggMap]
  unfold specEntryRecords aggMap
  rw [List.map_map]
  rfl

/-- Claim C4, counterexample: on an entry whose only field is an empty
title, the resolver drops the entry (its generic synthesis branch demands a
truthy title), while the reference rule as literally claimed — dropping only
entries with neither a code nor a title — synthesizes `"DISCOUNT: "` and
reports one aggregate. -/
theorem c4_counterexample :
    resolve_discount_code_analytics dbEmptyTitle 1 0 0 10 = [] ∧
    specDiscountCodeAnalytics specCodeOfEntry dbEmptyTitle 1 0 0 10 =
      [⟨"DISCOUNT: ", 1, 0, 100⟩] := by decide
